import Mathlib

/-!
Verification of the live session registry and multilingual fan-out pipeline
of the translator server.

The definitions below are a shallow embedding of the WebSocket route handler
(`registerRoutes`: the `join`, `audio_data` and `close` cases) and of the
OpenAI wrapper `translateText`.  Stateful code is modelled by explicit state
passing; the external transcription / translation / speech services are
modelled as result-valued parameters (`Except` for fallible calls); every
observable action of the handler (service call, record creation, message
send) is recorded in an explicit effect trace, in the order the source
performs them.  The per-language translation jobs run under
`Promise.allSettled` in the source; since no claim depends on the relative
interleaving of two distinct language jobs, they are modelled as a
deterministic fold in the order the source builds the promise array
(first-occurrence order of languages).
-/

/-- A persisted translation record (table `translations` of the schema;
`createTranslation` of `MemStorage` assigns consecutive ids). -/
structure Translation where
  id : Nat
  eventId : Nat
  originalText : String
  translatedText : Option String
  language : String
deriving DecidableEq, Repr

/-- One live WebSocket connection of an event (interface `EventConnection`).
The transport handle `ws` is modelled by an identifier `wsId` together with
`wsOpen` (readyState === OPEN). -/
structure EventConnection where
  wsId : Nat
  wsOpen : Bool
  language : String
  sessionId : String
  enableAudio : Bool
  isOrganizer : Bool
deriving DecidableEq, Repr

/-- The in-memory registry `activeConnections : Map<number, EventConnection[]>`,
modelled as an association list keyed by event id. -/
abbrev Registry := List (Nat × List EventConnection)

/-- `activeConnections.get(eventId)`, defaulting to the empty group. -/
def connsOf : Registry → Nat → List EventConnection
  | [], _ => []
  | p :: rest, eid => if p.1 = eid then p.2 else connsOf rest eid

/-- `activeConnections.has(eventId)`. -/
def hasGroup : Registry → Nat → Bool
  | [], _ => false
  | p :: rest, eid => (p.1 = eid) || hasGroup rest eid

/-- `activeConnections.set(eventId, group)`. -/
def setGroup : Registry → Nat → List EventConnection → Registry
  | [], eid, g => [(eid, g)]
  | p :: rest, eid, g => if p.1 = eid then (eid, g) :: rest else p :: setGroup rest eid g

/-- `activeConnections.delete(eventId)`. -/
def deleteGroup : Registry → Nat → Registry
  | [], _ => []
  | p :: rest, eid => if p.1 = eid then rest else p :: deleteGroup rest eid

/-- Observable actions of the `join` case, in source order. -/
inductive JoinEffect where
  | closeWs (wsId : Nat)
  | register (c : EventConnection)
deriving DecidableEq, Repr

/-- The `join` case of the message handler: ensure the event group exists,
close and splice out an existing connection with the same session id, then
push the new connection.  Returns the new registry together with the trace of
close/register actions in the order the source performs them. -/
def handleJoin (reg : Registry) (eid : Nat) (c : EventConnection) :
    Registry × List JoinEffect :=
  let g := connsOf reg eid
  match g.find? (fun e => e.sessionId == c.sessionId) with
  | some old =>
      let closes := if old.wsOpen then [JoinEffect.closeWs old.wsId] else []
      (setGroup reg eid ((g.eraseP (fun e => e.sessionId == c.sessionId)) ++ [c]),
       closes ++ [JoinEffect.register c])
  | none => (setGroup reg eid (g ++ [c]), [JoinEffect.register c])

/-- The `ws.on('close')` handler: remove every entry with the closing
session id; delete the event group entirely when it becomes empty.
(The participant-count broadcast it also performs carries no registry
state and is not needed by any claim.) -/
def handleClose (reg : Registry) (eid : Nat) (sid : String) : Registry :=
  if eid ≠ 0 ∧ hasGroup reg eid = true then
    if 0 < ((connsOf reg eid).filter (fun c => !(c.sessionId == sid))).length then
      setGroup reg eid ((connsOf reg eid).filter (fun c => !(c.sessionId == sid)))
    else deleteGroup reg eid
  else reg

/-- Registry-mutating operations: a join or a transport close. -/
inductive RegOp where
  | join (eid : Nat) (c : EventConnection)
  | close (eid : Nat) (sid : String)

/-- Apply one registry operation. -/
def applyOp (reg : Registry) : RegOp → Registry
  | RegOp.join eid c => (handleJoin reg eid c).1
  | RegOp.close eid sid => handleClose reg eid sid

/-- Apply a sequence of registry operations. -/
def applyOps (reg : Registry) : List RegOp → Registry
  | [] => reg
  | op :: ops => applyOps (applyOp reg op) ops

/-- Outbound messages of the `audio_data` pipeline (the `type` discriminants
of the JSON frames the source sends). -/
inductive OutMsg where
  | errorMsg (m : String)
  | statusSkipped
  | statusProcessing
  | statusNoSpeech
  | statusTranscribed (t : String)
  | statusComplete (succeeded failed total : Nat)
  | translationMsg (rec : Translation) (originalText : String)
  | audioTranslationMsg (audio : String) (text : String)
deriving DecidableEq, Repr

/-- Observable actions of the `audio_data` pipeline, in source order. -/
inductive Effect where
  | sendMsg (wsId : Nat) (msg : OutMsg)
  | transcribeCall (audio : String)
  | translateCall (text lang : String)
  | speechCall (text voice langHint : String)
  | createRecord (r : Translation)
deriving DecidableEq, Repr

/-- Context one segment pipeline runs in: the event, the submitting socket,
the snapshot of the event connections, and the outcomes of the external
translation and speech-synthesis services (per argument tuple). -/
structure PipeCtx where
  eventId : Nat
  senderWs : Nat
  conns : List EventConnection
  translateRes : String → String → Except String String
  speechRes : String → String → String → Except String String

/-- First-occurrence-order deduplication, as `Array.from(new Set(xs))`. -/
def uniqueAux : List String → List String → List String
  | [], _ => []
  | x :: xs, seen => if x ∈ seen then uniqueAux xs seen else x :: uniqueAux xs (x :: seen)

/-- `Array.from(new Set(xs))`. -/
def unique (l : List String) : List String := uniqueAux l []

/-- `uniqueLanguages`: the distinct languages of the event connections. -/
def uniqueLanguagesOf (conns : List EventConnection) : List String :=
  unique (conns.map (fun c => c.language))

/-- `uniqueLanguages.filter(lang => lang !== 'English')`: the distinct target
languages of one fan-out. -/
def targetLanguagesOf (conns : List EventConnection) : List String :=
  (uniqueLanguagesOf conns).filter (fun L => !(L == "English"))

/-- JS `text.trim().length === 0` (also true for the empty string, matching
the `!transcription ||` disjunct): every character is whitespace. -/
def isBlank (t : String) : Bool := t.data.all Char.isWhitespace

/-- JS `lang.substring(0, 2).toLowerCase()`, the language hint passed to
speech synthesis. -/
def langHintOf (lang : String) : String :=
  String.mk ((lang.data.take 2).map Char.toLower)

/-- Per-client body of a language job's delivery loop: skip closed sockets,
send the text translation, and when the client has audio enabled invoke
speech synthesis for it (a synthesis failure is caught and only suppresses
that audio send). -/
def clientSends (rec : Translation) (translated lang : String)
    (speechRes : String → String → String → Except String String)
    (c : EventConnection) : List Effect :=
  if c.wsOpen then
    Effect.sendMsg c.wsId (OutMsg.translationMsg rec rec.originalText) ::
    (if c.enableAudio then
      Effect.speechCall translated "nova" (langHintOf lang) ::
      (match speechRes translated "nova" (langHintOf lang) with
       | Except.ok audio => [Effect.sendMsg c.wsId (OutMsg.audioTranslationMsg audio translated)]
       | Except.error _ => [])
     else [])
  else []

/-- One per-language translation job (the async closure mapped over the
target languages): call the translation service; on success store a record
and deliver to every connection of that language; on failure report
`success: false` without touching the store.  Returns (effects, new store,
success flag). -/
def runJob (ctx : PipeCtx) (t : String) (store : List Translation) (L : String) :
    List Effect × List Translation × Bool :=
  match ctx.translateRes t L with
  | Except.error _ => ([Effect.translateCall t L], store, false)
  | Except.ok s =>
      let r : Translation := ⟨store.length + 1, ctx.eventId, t, some s, L⟩
      let clients := ctx.conns.filter (fun c => c.language == L)
      (Effect.translateCall t L :: Effect.createRecord r ::
         clients.flatMap (clientSends r s L ctx.speechRes),
       store ++ [r], true)

/-- Run the language jobs in the order the source builds the promise array,
threading the store and collecting each job's settled success flag. -/
def runJobs (ctx : PipeCtx) (t : String) (store : List Translation) :
    List String → List Effect × List Translation × List Bool
  | [] => ([], store, [])
  | L :: rest =>
      let j := runJob ctx t store L
      let js := runJobs ctx t j.2.1 rest
      (j.1 ++ js.1, js.2.1, j.2.2 :: js.2.2)

/-- Immediate delivery of the original transcription to every open
source-language (English) connection. -/
def sourceSends (conns : List EventConnection) (engRec : Translation) : List Effect :=
  (conns.filter (fun c => c.language == "English")).flatMap
    (fun c => if c.wsOpen then [Effect.sendMsg c.wsId (OutMsg.translationMsg engRec engRec.originalText)] else [])

/-- The pipeline from a successful non-empty transcription `t` on: create the
source-language record, notify the submitter, echo to English connections,
run the per-language jobs, then report the aggregate completion status. -/
def mainPipeline (ctx : PipeCtx) (t : String) (store : List Translation) :
    List Effect × List Translation :=
  let engRec : Translation := ⟨store.length + 1, ctx.eventId, t, none, "English"⟩
  let store1 := store ++ [engRec]
  let jr := runJobs ctx t store1 (targetLanguagesOf ctx.conns)
  let succeeded := jr.2.2.countP (fun b => b)
  let failed := jr.2.2.countP (fun b => !b)
  (Effect.createRecord engRec ::
     Effect.sendMsg ctx.senderWs (OutMsg.statusTranscribed t) ::
     (sourceSends ctx.conns engRec ++ jr.1 ++
      [Effect.sendMsg ctx.senderWs
        (OutMsg.statusComplete succeeded failed (uniqueLanguagesOf ctx.conns).length)]),
   jr.2.1)

/-- Dispatch on the transcription outcome: a service failure is reported as
an error to the submitter; empty or whitespace-only text short-circuits with
the "no speech detected" status; otherwise the main pipeline runs. -/
def afterTranscribe (ctx : PipeCtx) (store : List Translation)
    (tr : Except String String) : List Effect × List Translation :=
  match tr with
  | Except.error e => ([Effect.sendMsg ctx.senderWs (OutMsg.errorMsg e)], store)
  | Except.ok t =>
      if isBlank t then ([Effect.sendMsg ctx.senderWs OutMsg.statusNoSpeech], store)
      else mainPipeline ctx t store

/-- The `audio_data` case of the message handler: validates the payload, the
event and the sender's organizer flag, skips near-silent chunks, then runs
transcription and the fan-out pipeline.  Returns the (unchanged) registry,
the effect trace, and the new store. -/
def handleAudioData (reg : Registry) (store : List Translation)
    (senderWs : Nat) (senderSession : String) (eid : Nat)
    (audio : Option String) (eventExists : Bool)
    (transcribeRes : Except String String)
    (translateRes : String → String → Except String String)
    (speechRes : String → String → String → Except String String) :
    Registry × List Effect × List Translation :=
  match audio with
  | none => (reg, [Effect.sendMsg senderWs (OutMsg.errorMsg "Missing eventId or audio data")], store)
  | some a =>
      if !eventExists then
        (reg, [Effect.sendMsg senderWs (OutMsg.errorMsg "Event not found")], store)
      else if !((((connsOf reg eid).find? (fun c => c.sessionId == senderSession)).map
                  (fun c => c.isOrganizer)).getD false) then
        (reg, [Effect.sendMsg senderWs (OutMsg.errorMsg "Only organizers can broadcast audio")], store)
      else if a.length < 50 then
        (reg, [Effect.sendMsg senderWs OutMsg.statusSkipped], store)
      else
        let ctx : PipeCtx := ⟨eid, senderWs, connsOf reg eid, translateRes, speechRes⟩
        let res := afterTranscribe ctx store transcribeRes
        (reg, Effect.sendMsg senderWs OutMsg.statusProcessing ::
              Effect.transcribeCall a :: res.1, res.2)

/-- `translateText` of the OpenAI wrapper, given the chat completion's
message content (`null` modelled as `none`): the source falls back to the
input text when the content is falsy (`content || text`). -/
def translateText (text : String) (_targetLanguage : String)
    (responseContent : Option String) : String :=
  match responseContent with
  | some s => if s == "" then text else s
  | none => text

/-- Is this effect a translation-service call? -/
def Effect.isTranslateB : Effect → Bool
  | Effect.translateCall _ _ => true
  | _ => false

/-- Is this effect a speech-synthesis call? -/
def Effect.isSpeechB : Effect → Bool
  | Effect.speechCall _ _ _ => true
  | _ => false

/-- Is this effect a record creation? -/
def Effect.isCreateB : Effect → Bool
  | Effect.createRecord _ => true
  | _ => false

/-- Is this effect an aggregate completion-status send? -/
def Effect.isCompleteSendB : Effect → Bool
  | Effect.sendMsg _ (OutMsg.statusComplete _ _ _) => true
  | _ => false

/-- Is this effect an `audio_translation` frame send? -/
def Effect.isAudioSendB : Effect → Bool
  | Effect.sendMsg _ (OutMsg.audioTranslationMsg _ _) => true
  | _ => false

/-- Number of `audio_translation` frames sent to socket `w` in a trace. -/
def audioSendsTo (l : List Effect) (w : Nat) : Nat :=
  l.countP (fun e => match e with
    | Effect.sendMsg w2 (OutMsg.audioTranslationMsg _ _) => w2 == w
    | _ => false)

/-- The open audio-enabled connections of language `L` (those for which the
delivery loop invokes speech synthesis). -/
def audioClients (conns : List EventConnection) (L : String) : List EventConnection :=
  (conns.filter (fun c => c.language == L)).filter (fun c => c.wsOpen && c.enableAudio)

/-- No-empty-groups invariant on a registry. -/
def NoEmptyGroups (reg : Registry) : Prop := ∀ p ∈ reg, p.2 ≠ []

/-! ## Registry lemmas -/

lemma connsOf_setGroup (eid : Nat) (g : List EventConnection) :
    ∀ reg : Registry, connsOf (setGroup reg eid g) eid = g := by
  intro reg
  induction reg with
  | nil => simp [setGroup, connsOf]
  | cons q rest ih =>
      by_cases hq : q.1 = eid
      · simp [setGroup, hq, connsOf]
      · simp [setGroup, hq, connsOf, ih]

lemma hasGroup_true_iff (eid : Nat) :
    ∀ reg : Registry, hasGroup reg eid = true ↔ eid ∈ reg.map Prod.fst := by
  intro reg
  induction reg with
  | nil => simp [hasGroup]
  | cons q rest ih =>
      simp [hasGroup, ih]
      constructor
      · rintro (h | h)
        · exact Or.inl h.symm
        · exact Or.inr h
      · rintro (h | h)
        · exact Or.inl h.symm
        · exact Or.inr h

lemma connsOf_eq_nil_of_not_hasGroup (eid : Nat) :
    ∀ reg : Registry, hasGroup reg eid = false → connsOf reg eid = [] := by
  intro reg
  induction reg with
  | nil => simp [connsOf]
  | cons q rest ih =>
      intro h
      simp [hasGroup] at h
      simp [connsOf, h.1, ih h.2]

lemma mem_setGroup {p : Nat × List EventConnection} (eid : Nat) (g : List EventConnection) :
    ∀ reg : Registry, p ∈ setGroup reg eid g → p ∈ reg ∨ p = (eid, g) := by
  intro reg
  induction reg with
  | nil => simp [setGroup]
  | cons q rest ih =>
      intro h
      by_cases hq : q.1 = eid
      · simp [setGroup, hq] at h
        rcases h with h | h
        · exact Or.inr h
        · exact Or.inl (List.mem_cons_of_mem _ h)
      · simp [setGroup, hq] at h
        rcases h with h | h
        · exact Or.inl (by simp [h])
        · rcases ih h with h2 | h2
          · exact Or.inl (List.mem_cons_of_mem _ h2)
          · exact Or.inr h2

lemma mem_deleteGroup {p : Nat × List EventConnection} (eid : Nat) :
    ∀ reg : Registry, p ∈ deleteGroup reg eid → p ∈ reg := by
  intro reg
  induction reg with
  | nil => simp [deleteGroup]
  | cons q rest ih =>
      intro h
      by_cases hq : q.1 = eid
      · simp [deleteGroup, hq] at h
        exact List.mem_cons_of_mem _ h
      · simp [deleteGroup, hq] at h
        rcases h with h | h
        · simp [h]
        · exact List.mem_cons_of_mem _ (ih h)

lemma hasGroup_deleteGroup (eid : Nat) :
    ∀ reg : Registry, (reg.map Prod.fst).Nodup →
      hasGroup (deleteGroup reg eid) eid = false := by
  intro reg
  induction reg with
  | nil => simp [deleteGroup, hasGroup]
  | cons q rest ih =>
      intro hnd
      simp only [List.map_cons, List.nodup_cons] at hnd
      by_cases hq : q.1 = eid
      · simp only [deleteGroup, hq, if_pos rfl]
        rw [Bool.eq_false_iff]
        intro hcon
        exact hnd.1 (hq ▸ (hasGroup_true_iff eid rest).mp hcon)
      · simp [deleteGroup, hq, hasGroup, ih hnd.2]

lemma handleJoin_registry (reg : Registry) (eid : Nat) (c : EventConnection) :
    ∃ g : List EventConnection, (handleJoin reg eid c).1 = setGroup reg eid (g ++ [c]) := by
  cases h : (connsOf reg eid).find? (fun e => e.sessionId == c.sessionId) with
  | none => exact ⟨connsOf reg eid, by simp [handleJoin, h]⟩
  | some old =>
      exact ⟨(connsOf reg eid).eraseP (fun e => e.sessionId == c.sessionId),
        by simp [handleJoin, h]⟩

lemma noEmptyGroups_applyOp {reg : Registry} (h : NoEmptyGroups reg) (op : RegOp) :
    NoEmptyGroups (applyOp reg op) := by
  cases op with
  | join eid c =>
      obtain ⟨g, hg⟩ := handleJoin_registry reg eid c
      intro p hp
      rw [applyOp, hg] at hp
      rcases mem_setGroup eid (g ++ [c]) reg hp with h2 | h2
      · exact h p h2
      · simp [h2]
  | close eid sid =>
      intro p hp
      rw [applyOp, handleClose] at hp
      split at hp
      · split at hp
        · next hlen =>
            rcases mem_setGroup eid _ reg hp with h2 | h2
            · exact h p h2
            · rw [h2]
              exact List.length_pos.mp hlen
        · exact h p (mem_deleteGroup eid reg hp)
      · exact h p hp

lemma noEmptyGroups_applyOps {reg : Registry} (h : NoEmptyGroups reg) :
    ∀ ops : List RegOp, NoEmptyGroups (applyOps reg ops) := by
  intro ops
  induction ops generalizing reg with
  | nil => exact h
  | cons op rest ih => exact ih (noEmptyGroups_applyOp h op)

lemma find?_eq_of_filter_single {α : Type} (p : α → Bool) :
    ∀ (g : List α) (a : α), g.filter p = [a] → g.find? p = some a := by
  intro g
  induction g with
  | nil => simp
  | cons x xs ih =>
      intro a hf
      cases hx : p x with
      | true =>
          rw [List.filter_cons_of_pos hx] at hf
          injection hf with h1 h2
          subst h1
          simp [List.find?, hx]
      | false =>
          rw [List.filter_cons_of_neg (by simp [hx])] at hf
          simp only [List.find?, hx]
          exact ih a hf

lemma filter_eraseP_single {α : Type} (p : α → Bool) :
    ∀ (g : List α) (a : α), g.filter p = [a] → (g.eraseP p).filter p = [] := by
  intro g
  induction g with
  | nil => simp
  | cons x xs ih =>
      intro a hf
      cases hx : p x with
      | true =>
          rw [List.filter_cons_of_pos hx] at hf
          injection hf with h1 h2
          rw [List.eraseP_cons_of_pos hx]
          exact h2
      | false =>
          rw [List.filter_cons_of_neg (by simp [hx])] at hf
          rw [List.eraseP_cons_of_neg (by simp [hx]),
            List.filter_cons_of_neg (by simp [hx])]
          exact ih a hf

/-- C3: a join carrying a SessionId that already has a live (open) entry in
the event's group leaves exactly one live entry for that session — the new
connection — and the join's effect trace closes the prior transport strictly
before registering the new entry. -/
theorem C3_join_supersedes_live_session (reg : Registry) (eid : Nat)
    (c old : EventConnection)
    (hone : (connsOf reg eid).filter (fun e => e.sessionId == c.sessionId) = [old])
    (hopen : old.wsOpen = true) :
    (connsOf (handleJoin reg eid c).1 eid).filter (fun e => e.sessionId == c.sessionId) = [c]
    ∧ (handleJoin reg eid c).2 = [JoinEffect.closeWs old.wsId, JoinEffect.register c] := by
  have hfind := find?_eq_of_filter_single _ _ _ hone
  have herase := filter_eraseP_single _ _ _ hone
  constructor
  · have hreg1 : (handleJoin reg eid c).1 =
        setGroup reg eid
          (((connsOf reg eid).eraseP (fun e => e.sessionId == c.sessionId)) ++ [c]) := by
      simp [handleJoin, hfind]
    rw [hreg1, connsOf_setGroup, List.filter_append, herase]
    simp
  · simp [handleJoin, hfind, hopen]

/-- Witness for C3 at a concrete registry. -/
theorem C3_join_supersedes_live_session_witness :
    (connsOf (handleJoin [(1, [(⟨5, true, "English", "sOne", false, false⟩ : EventConnection)])]
        1 ⟨6, true, "Spanish", "sOne", true, false⟩).1 1).filter
        (fun e => e.sessionId == "sOne") = [⟨6, true, "Spanish", "sOne", true, false⟩]
    ∧ (handleJoin [(1, [(⟨5, true, "English", "sOne", false, false⟩ : EventConnection)])]
        1 ⟨6, true, "Spanish", "sOne", true, false⟩).2 =
      [JoinEffect.closeWs 5, JoinEffect.register ⟨6, true, "Spanish", "sOne", true, false⟩] :=
  C3_join_supersedes_live_session
    [(1, [⟨5, true, "English", "sOne", false, false⟩])] 1
    ⟨6, true, "Spanish", "sOne", true, false⟩
    ⟨5, true, "English", "sOne", false, false⟩ (by decide) rfl

/-- C9: no empty event group ever persists in the registry: any sequence of
joins and closes starting from the empty registry leaves only non-empty
groups; closing the last connection of an event deletes the event's entry
from the map; and a subsequent join to that event starts a fresh group
holding exactly the new connection. -/
theorem C9_no_empty_group_persists :
    (∀ ops : List RegOp, ∀ p ∈ applyOps [] ops, p.2 ≠ [])
    ∧ (∀ (reg : Registry) (eid : Nat) (e : EventConnection), eid ≠ 0 →
        (reg.map Prod.fst).Nodup → hasGroup reg eid = true → connsOf reg eid = [e] →
        hasGroup (handleClose reg eid e.sessionId) eid = false)
    ∧ (∀ (reg : Registry) (eid : Nat) (c : EventConnection), hasGroup reg eid = false →
        connsOf (handleJoin reg eid c).1 eid = [c]) := by
  refine ⟨?_, ?_, ?_⟩
  · intro ops
    exact noEmptyGroups_applyOps (fun p hp => absurd hp (List.not_mem_nil p)) ops
  · intro reg eid e h0 hnd hhas hconns
    rw [handleClose, if_pos ⟨h0, hhas⟩, hconns]
    simp only [List.filter_cons, List.filter_nil, beq_self_eq_true, Bool.not_true,
      List.length_nil, Nat.lt_irrefl, if_false]
    exact hasGroup_deleteGroup eid reg hnd
  · intro reg eid c hno
    have h1 : connsOf reg eid = [] := connsOf_eq_nil_of_not_hasGroup eid reg hno
    have h2 : (connsOf reg eid).find? (fun e => e.sessionId == c.sessionId) = none := by
      rw [h1]; rfl
    simp [handleJoin, h2, h1, connsOf_setGroup]

/-- Witness for C9 at a concrete registry. -/
theorem C9_no_empty_group_persists_witness :
    (∀ p ∈ applyOps [] [RegOp.join 1 ⟨1, true, "English", "sA", false, true⟩], p.2 ≠ [])
    ∧ hasGroup (handleClose [(1, [(⟨1, true, "English", "sA", false, true⟩ : EventConnection)])]
        1 "sA") 1 = false
    ∧ connsOf (handleJoin [] 1 ⟨1, true, "English", "sA", false, true⟩).1 1 =
      [⟨1, true, "English", "sA", false, true⟩] :=
  ⟨C9_no_empty_group_persists.1 _,
   C9_no_empty_group_persists.2.1 [(1, [⟨1, true, "English", "sA", false, true⟩])] 1
     ⟨1, true, "English", "sA", false, true⟩ (by decide) (by decide) (by decide) (by decide),
   C9_no_empty_group_persists.2.2 [] 1 ⟨1, true, "English", "sA", false, true⟩ (by decide)⟩

/-! ## Pipeline lemmas -/

lemma countP_add_countP_not {α : Type} (p : α → Bool) :
    ∀ l : List α, l.countP p + l.countP (fun a => !(p a)) = l.length := by
  intro l
  induction l with
  | nil => simp
  | cons x xs ih =>
      cases hx : p x <;> simp [List.countP_cons, hx] <;> omega

lemma mem_clientSends {rec : Translation} {s L : String}
    {sp : String → String → String → Except String String} {c : EventConnection} {e : Effect}
    (he : e ∈ clientSends rec s L sp c) :
    e = Effect.sendMsg c.wsId (OutMsg.translationMsg rec rec.originalText)
    ∨ e = Effect.speechCall s "nova" (langHintOf L)
    ∨ ∃ audio, e = Effect.sendMsg c.wsId (OutMsg.audioTranslationMsg audio s) := by
  rw [clientSends] at he
  split at he
  · rcases List.mem_cons.mp he with h | he2
    · exact Or.inl h
    · split at he2
      · rcases List.mem_cons.mp he2 with h | he3
        · exact Or.inr (Or.inl h)
        · cases hsp : sp s "nova" (langHintOf L) with
          | ok audio =>
              rw [hsp] at he3
              simp at he3
              exact Or.inr (Or.inr ⟨audio, he3⟩)
          | error err =>
              rw [hsp] at he3
              simp at he3
      · simp at he2
  · simp at he

lemma clientSends_speech_count (rec : Translation) (s L : String)
    (sp : String → String → String → Except String String) (c : EventConnection) :
    (clientSends rec s L sp c).countP Effect.isSpeechB =
      if c.wsOpen && c.enableAudio then 1 else 0 := by
  cases hopen : c.wsOpen <;> cases haud : c.enableAudio <;>
    cases hsp : sp s "nova" (langHintOf L) <;>
    simp [clientSends, hopen, haud, hsp, List.countP_cons, Effect.isSpeechB]

lemma clientSends_audio_origin {rec : Translation} {s L : String}
    {sp : String → String → String → Except String String} {c : EventConnection}
    {w : Nat} {au tx : String}
    (he : Effect.sendMsg w (OutMsg.audioTranslationMsg au tx) ∈ clientSends rec s L sp c) :
    w = c.wsId ∧ c.wsOpen = true ∧ c.enableAudio = true ∧ tx = s
    ∧ sp s "nova" (langHintOf L) = Except.ok au := by
  cases hopen : c.wsOpen <;> cases haud : c.enableAudio <;>
    cases hsp : sp s "nova" (langHintOf L) <;>
    rw [clientSends] at he <;> simp [hopen, haud, hsp] at he
  exact ⟨he.1, rfl, rfl, he.2.2, by rw [he.2.1]⟩

lemma clientSends_text_head {c : EventConnection} (rec : Translation) (s L : String)
    (sp : String → String → String → Except String String) (hopen : c.wsOpen = true) :
    Effect.sendMsg c.wsId (OutMsg.translationMsg rec rec.originalText) ∈
      clientSends rec s L sp c := by
  rw [clientSends, if_pos hopen]
  exact List.mem_cons_self _ _

lemma flatMap_clientSends_no_translate (rec : Translation) (s L : String)
    (sp : String → String → String → Except String String)
    (clients : List EventConnection) :
    (clients.flatMap (clientSends rec s L sp)).countP Effect.isTranslateB = 0 := by
  rw [List.countP_eq_zero]
  intro e he
  obtain ⟨c, _, hec⟩ := List.mem_flatMap.mp he
  rcases mem_clientSends hec with h | h | ⟨au, h⟩ <;> subst h <;> simp [Effect.isTranslateB]

lemma flatMap_clientSends_no_create (rec : Translation) (s L : String)
    (sp : String → String → String → Except String String)
    (clients : List EventConnection) :
    (clients.flatMap (clientSends rec s L sp)).countP Effect.isCreateB = 0 := by
  rw [List.countP_eq_zero]
  intro e he
  obtain ⟨c, _, hec⟩ := List.mem_flatMap.mp he
  rcases mem_clientSends hec with h | h | ⟨au, h⟩ <;> subst h <;> simp [Effect.isCreateB]

lemma flatMap_clientSends_speech_count (rec : Translation) (s L : String)
    (sp : String → String → String → Except String String) :
    ∀ clients : List EventConnection,
      (clients.flatMap (clientSends rec s L sp)).countP Effect.isSpeechB =
        (clients.filter (fun c => c.wsOpen && c.enableAudio)).length := by
  intro clients
  induction clients with
  | nil => simp
  | cons c cs ih =>
      rw [List.flatMap_cons, List.countP_append, ih, clientSends_speech_count,
        List.filter_cons]
      cases h : (c.wsOpen && c.enableAudio)
      · simp
      · simp
        omega

lemma runJob_translate_count (ctx : PipeCtx) (t : String) (store : List Translation)
    (L : String) : (runJob ctx t store L).1.countP Effect.isTranslateB = 1 := by
  cases htr : ctx.translateRes t L with
  | error e => simp [runJob, htr, List.countP_cons, Effect.isTranslateB]
  | ok s =>
      simp [runJob, htr, List.countP_cons, Effect.isTranslateB,
        flatMap_clientSends_no_translate]

lemma runJob_success (ctx : PipeCtx) (t : String) (store : List Translation) (L : String) :
    (runJob ctx t store L).2.2 = (ctx.translateRes t L).isOk := by
  cases htr : ctx.translateRes t L with
  | error e => simp [runJob, htr, Except.isOk, Except.toBool]
  | ok s => simp [runJob, htr, Except.isOk, Except.toBool]

lemma runJob_store_ext (ctx : PipeCtx) (t : String) (store : List Translation) (L : String) :
    ∃ ext, (runJob ctx t store L).2.1 = store ++ ext := by
  cases htr : ctx.translateRes t L with
  | error e => exact ⟨[], by simp [runJob, htr]⟩
  | ok s => exact ⟨[⟨store.length + 1, ctx.eventId, t, some s, L⟩], by simp [runJob, htr]⟩

lemma runJob_store_ok {ctx : PipeCtx} {t s L : String} (store : List Translation)
    (htr : ctx.translateRes t L = Except.ok s) :
    (runJob ctx t store L).2.1 =
      store ++ [⟨store.length + 1, ctx.eventId, t, some s, L⟩] := by
  simp [runJob, htr]

lemma runJob_speech_count {ctx : PipeCtx} {t s L : String} (store : List Translation)
    (htr : ctx.translateRes t L = Except.ok s) :
    (runJob ctx t store L).1.countP Effect.isSpeechB = (audioClients ctx.conns L).length := by
  simp only [runJob, htr, List.countP_cons, Effect.isSpeechB,
    flatMap_clientSends_speech_count, audioClients]
  rfl

lemma runJob_text_delivery {ctx : PipeCtx} {t s L : String} {c : EventConnection}
    (store : List Translation)
    (htr : ctx.translateRes t L = Except.ok s) (hc : c ∈ ctx.conns)
    (hlang : c.language = L) (hopen : c.wsOpen = true) :
    ∃ r : Translation, Effect.sendMsg c.wsId (OutMsg.translationMsg r t) ∈
        (runJob ctx t store L).1
      ∧ r.language = L ∧ r.translatedText = some s ∧ r.originalText = t := by
  refine ⟨⟨store.length + 1, ctx.eventId, t, some s, L⟩, ?_, rfl, rfl, rfl⟩
  simp only [runJob, htr]
  apply List.mem_cons_of_mem
  apply List.mem_cons_of_mem
  exact List.mem_flatMap.mpr
    ⟨c, List.mem_filter.mpr ⟨hc, by simp [hlang]⟩,
     clientSends_text_head _ s L ctx.speechRes hopen⟩

lemma runJob_create_shape {ctx : PipeCtx} {t L : String} {r : Translation}
    (store : List Translation)
    (hr : Effect.createRecord r ∈ (runJob ctx t store L).1) :
    ∃ s, ctx.translateRes t L = Except.ok s
      ∧ r = ⟨store.length + 1, ctx.eventId, t, some s, L⟩ := by
  cases htr : ctx.translateRes t L with
  | error e => simp [runJob, htr] at hr
  | ok s =>
      refine ⟨s, rfl, ?_⟩
      simp only [runJob, htr] at hr
      rcases List.mem_cons.mp hr with h | hr2
      · exact absurd h (by simp)
      · rcases List.mem_cons.mp hr2 with h | hr3
        · injection h with h2
        · exfalso
          have h0 := flatMap_clientSends_no_create
            (⟨store.length + 1, ctx.eventId, t, some s, L⟩ : Translation) s L ctx.speechRes
            (ctx.conns.filter (fun c => c.language == L))
          rw [List.countP_eq_zero] at h0
          exact h0 _ hr3 (by simp [Effect.isCreateB])

lemma runJob_audio_origin {ctx : PipeCtx} {t L : String} {w : Nat} {au tx : String}
    (store : List Translation)
    (he : Effect.sendMsg w (OutMsg.audioTranslationMsg au tx) ∈ (runJob ctx t store L).1) :
    ∃ c, c ∈ ctx.conns ∧ c.language = L ∧ c.wsId = w ∧ c.wsOpen = true
      ∧ c.enableAudio = true
      ∧ ∃ s, ctx.translateRes t L = Except.ok s ∧ tx = s
        ∧ ctx.speechRes s "nova" (langHintOf L) = Except.ok au := by
  cases htr : ctx.translateRes t L with
  | error e => simp [runJob, htr] at he
  | ok s =>
      simp only [runJob, htr] at he
      rcases List.mem_cons.mp he with h | he2
      · exact absurd h (by simp)
      · rcases List.mem_cons.mp he2 with h | he3
        · exact absurd h (by simp)
        · obtain ⟨c, hcmem, hec⟩ := List.mem_flatMap.mp he3
          have hcf := List.mem_filter.mp hcmem
          obtain ⟨hw, hopen, haud, htx, hsp⟩ := clientSends_audio_origin hec
          exact ⟨c, hcf.1, by simpa using hcf.2, hw.symm, hopen, haud, s, rfl, htx, hsp⟩

lemma isAudioSendB_shape {e : Effect} (h : e.isAudioSendB = true) :
    ∃ w au tx, e = Effect.sendMsg w (OutMsg.audioTranslationMsg au tx) := by
  cases e with
  | sendMsg w m =>
      cases m with
      | audioTranslationMsg au tx => exact ⟨w, au, tx, rfl⟩
      | errorMsg m => exact absurd h (by simp [Effect.isAudioSendB])
      | statusSkipped => exact absurd h (by simp [Effect.isAudioSendB])
      | statusProcessing => exact absurd h (by simp [Effect.isAudioSendB])
      | statusNoSpeech => exact absurd h (by simp [Effect.isAudioSendB])
      | statusTranscribed t => exact absurd h (by simp [Effect.isAudioSendB])
      | statusComplete a b c => exact absurd h (by simp [Effect.isAudioSendB])
      | translationMsg r o => exact absurd h (by simp [Effect.isAudioSendB])
  | transcribeCall a => exact absurd h (by simp [Effect.isAudioSendB])
  | translateCall a b => exact absurd h (by simp [Effect.isAudioSendB])
  | speechCall a b c => exact absurd h (by simp [Effect.isAudioSendB])
  | createRecord r => exact absurd h (by simp [Effect.isAudioSendB])

lemma runJob_no_audio_of_speech_fail {ctx : PipeCtx} {t s L err : String}
    (store : List Translation)
    (htr : ctx.translateRes t L = Except.ok s)
    (hsp : ctx.speechRes s "nova" (langHintOf L) = Except.error err) :
    (runJob ctx t store L).1.countP Effect.isAudioSendB = 0 := by
  rw [List.countP_eq_zero]
  intro e he haud
  obtain ⟨w, au, tx, rfl⟩ := isAudioSendB_shape haud
  obtain ⟨c, _, _, _, _, _, s2, hs2, _, hsp2⟩ := runJob_audio_origin store he
  rw [htr] at hs2
  injection hs2 with hs2
  rw [← hs2, hsp] at hsp2
  exact Except.noConfusion hsp2

lemma runJobs_translate_count (ctx : PipeCtx) (t : String) :
    ∀ (langs : List String) (store : List Translation),
      (runJobs ctx t store langs).1.countP Effect.isTranslateB = langs.length := by
  intro langs
  induction langs with
  | nil => intro store; simp [runJobs]
  | cons L rest ih =>
      intro store
      simp only [runJobs, List.countP_append]
      rw [runJob_translate_count, ih]
      simp [Nat.add_comm]

lemma runJobs_oks (ctx : PipeCtx) (t : String) :
    ∀ (langs : List String) (store : List Translation),
      (runJobs ctx t store langs).2.2 = langs.map (fun L => (ctx.translateRes t L).isOk) := by
  intro langs
  induction langs with
  | nil => intro store; simp [runJobs]
  | cons L rest ih =>
      intro store
      simp only [runJobs, List.map_cons]
      rw [runJob_success, ih]

lemma runJobs_store_ext (ctx : PipeCtx) (t : String) :
    ∀ (langs : List String) (store : List Translation),
      ∃ ext, (runJobs ctx t store langs).2.1 = store ++ ext := by
  intro langs
  induction langs with
  | nil => intro store; exact ⟨[], by simp [runJobs]⟩
  | cons L rest ih =>
      intro store
      obtain ⟨e1, he1⟩ := runJob_store_ext ctx t store L
      obtain ⟨e2, he2⟩ := ih (runJob ctx t store L).2.1
      exact ⟨e1 ++ e2, by simp only [runJobs]; rw [he2, he1, List.append_assoc]⟩

lemma runJobs_record_mem {ctx : PipeCtx} {t s L : String} :
    ∀ (langs : List String) (store : List Translation), L ∈ langs →
      ctx.translateRes t L = Except.ok s →
      ∃ r ∈ (runJobs ctx t store langs).2.1,
        r.language = L ∧ r.translatedText = some s ∧ r.originalText = t
        ∧ r.eventId = ctx.eventId := by
  intro langs
  induction langs with
  | nil => intro store h; exact absurd h (List.not_mem_nil L)
  | cons L2 rest ih =>
      intro store hmem htr
      rcases List.mem_cons.mp hmem with h | h
      · subst h
        refine ⟨⟨store.length + 1, ctx.eventId, t, some s, L⟩, ?_, rfl, rfl, rfl, rfl⟩
        obtain ⟨e2, he2⟩ := runJobs_store_ext ctx t rest (runJob ctx t store L).2.1
        simp only [runJobs]
        rw [he2, runJob_store_ok store htr]
        simp
      · obtain ⟨r, hrmem, hprops⟩ := ih (runJob ctx t store L2).2.1 h htr
        exact ⟨r, by simp only [runJobs]; exact hrmem, hprops⟩

lemma runJobs_text_delivery {ctx : PipeCtx} {t s L : String} {c : EventConnection} :
    ∀ (langs : List String) (store : List Translation), L ∈ langs →
      ctx.translateRes t L = Except.ok s →
      c ∈ ctx.conns → c.language = L → c.wsOpen = true →
      ∃ r : Translation, Effect.sendMsg c.wsId (OutMsg.translationMsg r t) ∈
          (runJobs ctx t store langs).1
        ∧ r.language = L ∧ r.translatedText = some s ∧ r.originalText = t := by
  intro langs
  induction langs with
  | nil => intro store h; exact absurd h (List.not_mem_nil L)
  | cons L2 rest ih =>
      intro store hmem htr hc hlang hopen
      rcases List.mem_cons.mp hmem with h | h
      · subst h
        obtain ⟨r, hrmem, hprops⟩ := runJob_text_delivery store htr hc hlang hopen
        exact ⟨r, by simp only [runJobs]; exact List.mem_append_left _ hrmem, hprops⟩
      · obtain ⟨r, hrmem, hprops⟩ := ih (runJob ctx t store L2).2.1 h htr hc hlang hopen
        exact ⟨r, by simp only [runJobs]; exact List.mem_append_right _ hrmem, hprops⟩

lemma runJobs_create_lang {ctx : PipeCtx} {t : String} {r : Translation} :
    ∀ (langs : List String) (store : List Translation),
      Effect.createRecord r ∈ (runJobs ctx t store langs).1 → r.language ∈ langs := by
  intro langs
  induction langs with
  | nil => intro store h; simp [runJobs] at h
  | cons L rest ih =>
      intro store h
      simp only [runJobs] at h
      rcases List.mem_append.mp h with h2 | h2
      · obtain ⟨s, _, hr⟩ := runJob_create_shape store h2
        rw [hr]
        exact List.mem_cons_self _ _
      · exact List.mem_cons_of_mem _ (ih (runJob ctx t store L).2.1 h2)

lemma runJobs_audio_origin {ctx : PipeCtx} {t : String} {w : Nat} {au tx : String} :
    ∀ (langs : List String) (store : List Translation),
      Effect.sendMsg w (OutMsg.audioTranslationMsg au tx) ∈ (runJobs ctx t store langs).1 →
      ∃ c, c ∈ ctx.conns ∧ c.language ∈ langs ∧ c.wsId = w ∧ c.wsOpen = true
        ∧ c.enableAudio = true := by
  intro langs
  induction langs with
  | nil => intro store h; simp [runJobs] at h
  | cons L rest ih =>
      intro store h
      simp only [runJobs] at h
      rcases List.mem_append.mp h with h2 | h2
      · obtain ⟨c, hc, hlang, hw, hopen, haud, _⟩ := runJob_audio_origin store h2
        exact ⟨c, hc, by rw [hlang]; exact List.mem_cons_self _ _, hw, hopen, haud⟩
      · obtain ⟨c, hc, hlang, hw, hopen, haud⟩ := ih (runJob ctx t store L).2.1 h2
        exact ⟨c, hc, List.mem_cons_of_mem _ hlang, hw, hopen, haud⟩

lemma mem_sourceSends_shape {conns : List EventConnection} {engRec : Translation} {e : Effect}
    (he : e ∈ sourceSends conns engRec) :
    ∃ c, c ∈ conns ∧ c.language = "English" ∧ c.wsOpen = true
      ∧ e = Effect.sendMsg c.wsId (OutMsg.translationMsg engRec engRec.originalText) := by
  rw [sourceSends] at he
  obtain ⟨c, hcmem, hec⟩ := List.mem_flatMap.mp he
  have hcf := List.mem_filter.mp hcmem
  cases hopen : c.wsOpen with
  | false => simp [hopen] at hec
  | true =>
      simp only [hopen, if_true] at hec
      simp at hec
      exact ⟨c, hcf.1, by simpa using hcf.2, hopen, hec⟩

lemma sourceSends_mem {conns : List EventConnection} {engRec : Translation}
    {c : EventConnection} (hc : c ∈ conns) (hlang : c.language = "English")
    (hopen : c.wsOpen = true) :
    Effect.sendMsg c.wsId (OutMsg.translationMsg engRec engRec.originalText) ∈
      sourceSends conns engRec := by
  rw [sourceSends]
  exact List.mem_flatMap.mpr
    ⟨c, List.mem_filter.mpr ⟨hc, by simp [hlang]⟩, by simp [hopen]⟩

lemma sourceSends_count_zero {conns : List EventConnection} {engRec : Translation}
    (p : Effect → Bool)
    (hp : ∀ w r o, p (Effect.sendMsg w (OutMsg.translationMsg r o)) = false) :
    (sourceSends conns engRec).countP p = 0 := by
  rw [List.countP_eq_zero]
  intro e he
  obtain ⟨c, _, _, _, hshape⟩ := mem_sourceSends_shape he
  rw [hshape, hp]
  simp

lemma mem_uniqueAux (x : String) :
    ∀ (l seen : List String), x ∈ uniqueAux l seen ↔ (x ∈ l ∧ x ∉ seen) := by
  intro l
  induction l with
  | nil => intro seen; simp [uniqueAux]
  | cons y ys ih =>
      intro seen
      by_cases hy : y ∈ seen
      · rw [uniqueAux, if_pos hy, ih]
        constructor
        · rintro ⟨h1, h2⟩
          exact ⟨List.mem_cons_of_mem _ h1, h2⟩
        · rintro ⟨h1, h2⟩
          rcases List.mem_cons.mp h1 with h | h
          · exact absurd (h ▸ hy) h2
          · exact ⟨h, h2⟩
      · rw [uniqueAux, if_neg hy]
        constructor
        · intro h
          rcases List.mem_cons.mp h with h | h
          · exact ⟨h ▸ List.mem_cons_self _ _, h ▸ hy⟩
          · obtain ⟨h1, h2⟩ := (ih (y :: seen)).mp h
            exact ⟨List.mem_cons_of_mem _ h1,
              fun hc => h2 (List.mem_cons_of_mem _ hc)⟩
        · rintro ⟨h1, h2⟩
          by_cases hxy : x = y
          · exact hxy ▸ List.mem_cons_self _ _
          · rcases List.mem_cons.mp h1 with h | h
            · exact absurd h hxy
            · exact List.mem_cons_of_mem _
                ((ih (y :: seen)).mpr ⟨h, by simp [hxy, h2]⟩)

lemma uniqueAux_nodup : ∀ (l seen : List String), (uniqueAux l seen).Nodup := by
  intro l
  induction l with
  | nil => intro seen; simp [uniqueAux]
  | cons y ys ih =>
      intro seen
      by_cases hy : y ∈ seen
      · rw [uniqueAux, if_pos hy]
        exact ih seen
      · rw [uniqueAux, if_neg hy]
        refine List.nodup_cons.mpr ⟨?_, ih (y :: seen)⟩
        intro hc
        exact ((mem_uniqueAux y ys (y :: seen)).mp hc).2 (List.mem_cons_self _ _)

lemma unique_nodup (l : List String) : (unique l).Nodup := uniqueAux_nodup l []

lemma targetLanguagesOf_nodup (conns : List EventConnection) :
    (targetLanguagesOf conns).Nodup :=
  List.Nodup.filter _ (unique_nodup _)

lemma mem_targetLanguagesOf_ne {conns : List EventConnection} {L : String}
    (h : L ∈ targetLanguagesOf conns) : L ≠ "English" := by
  have h2 := (List.mem_filter.mp h).2
  simpa using h2

lemma handleAudioData_run (reg : Registry) (store : List Translation)
    (senderWs : Nat) (sid : String) (eid : Nat) (a t : String)
    (translateRes : String → String → Except String String)
    (speechRes : String → String → String → Except String String)
    (horg : (((connsOf reg eid).find? (fun c => c.sessionId == sid)).map
      (fun c => c.isOrganizer)).getD false = true)
    (hlen : 50 ≤ a.length) :
    handleAudioData reg store senderWs sid eid (some a) true (Except.ok t)
        translateRes speechRes =
      (reg,
       Effect.sendMsg senderWs OutMsg.statusProcessing :: Effect.transcribeCall a ::
         (afterTranscribe ⟨eid, senderWs, connsOf reg eid, translateRes, speechRes⟩
            store (Except.ok t)).1,
       (afterTranscribe ⟨eid, senderWs, connsOf reg eid, translateRes, speechRes⟩
          store (Except.ok t)).2) := by
  simp only [handleAudioData, Bool.not_true, Bool.false_eq_true, if_false, horg,
    Nat.not_lt.mpr hlen, if_neg]

lemma mainPipeline_audio_origin {ctx : PipeCtx} {t : String} {store : List Translation}
    {w : Nat} {au tx : String}
    (he : Effect.sendMsg w (OutMsg.audioTranslationMsg au tx) ∈ (mainPipeline ctx t store).1) :
    ∃ c, c ∈ ctx.conns ∧ c.wsId = w ∧ c.enableAudio = true ∧ c.wsOpen = true
      ∧ c.language ≠ "English" := by
  simp only [mainPipeline] at he
  rcases List.mem_cons.mp he with h | he2
  · exact absurd h (by simp)
  · rcases List.mem_cons.mp he2 with h | he3
    · exact absurd h (by simp)
    · rcases List.mem_append.mp he3 with he4 | he5
      · rcases List.mem_append.mp he4 with he6 | he7
        · obtain ⟨c, _, _, _, hshape⟩ := mem_sourceSends_shape he6
          exact absurd hshape (by simp)
        · obtain ⟨c, hc, hlang, hw, hopen, haud⟩ := runJobs_audio_origin _ _ he7
          exact ⟨c, hc, hw, haud, hopen, mem_targetLanguagesOf_ne hlang⟩
      · simp at he5

lemma afterTranscribe_audio_origin {ctx : PipeCtx} {store : List Translation}
    {tr : Except String String} {w : Nat} {au tx : String}
    (he : Effect.sendMsg w (OutMsg.audioTranslationMsg au tx) ∈
      (afterTranscribe ctx store tr).1) :
    ∃ c, c ∈ ctx.conns ∧ c.wsId = w ∧ c.enableAudio = true ∧ c.wsOpen = true
      ∧ c.language ≠ "English" := by
  cases tr with
  | error e => simp [afterTranscribe] at he
  | ok t =>
      rw [afterTranscribe] at he
      by_cases hb : isBlank t
      · rw [if_pos hb] at he
        simp at he
      · rw [if_neg hb] at he
        exact mainPipeline_audio_origin he

lemma handleAudioData_audio_origin {reg : Registry} {store : List Translation}
    {senderWs : Nat} {sid : String} {eid : Nat} {audio : Option String} {evEx : Bool}
    {tr : Except String String}
    {translateRes : String → String → Except String String}
    {speechRes : String → String → String → Except String String}
    {w : Nat} {au tx : String}
    (he : Effect.sendMsg w (OutMsg.audioTranslationMsg au tx) ∈
      (handleAudioData reg store senderWs sid eid audio evEx tr translateRes speechRes).2.1) :
    ∃ c, c ∈ connsOf reg eid ∧ c.wsId = w ∧ c.enableAudio = true ∧ c.wsOpen = true
      ∧ c.language ≠ "English" := by
  cases audio with
  | none => simp [handleAudioData] at he
  | some a =>
      rw [handleAudioData] at he
      by_cases hev : (!evEx) = true
      · rw [if_pos hev] at he
        simp at he
      · rw [if_neg hev] at he
        by_cases horg : (!((((connsOf reg eid).find? (fun c => c.sessionId == sid)).map
            (fun c => c.isOrganizer)).getD false)) = true
        · rw [if_pos horg] at he
          simp at he
        · rw [if_neg horg] at he
          by_cases hlen : a.length < 50
          · rw [if_pos hlen] at he
            simp at he
          · rw [if_neg hlen] at he
            rcases List.mem_cons.mp he with h | he2
            · exact absurd h (by simp)
            · rcases List.mem_cons.mp he2 with h | he3
              · exact absurd h (by simp)
              · exact afterTranscribe_audio_origin he3

lemma afterTranscribe_ok_nonblank {ctx : PipeCtx} {store : List Translation} {t : String}
    (hb : isBlank t = false) :
    afterTranscribe ctx store (Except.ok t) = mainPipeline ctx t store := by
  simp [afterTranscribe, hb]

/-- C7: a segment whose transcription yields empty or whitespace-only text
creates no TranslationRecord, performs no fan-out send, and reports a single
"no speech detected" completion status to the submitting connection only
(the only other frames are the processing acknowledgment to the same
submitter and the transcription call itself). -/
theorem C7_blank_transcription_no_side_effects (reg : Registry) (store : List Translation)
    (senderWs : Nat) (sid : String) (eid : Nat) (a t : String)
    (translateRes : String → String → Except String String)
    (speechRes : String → String → String → Except String String)
    (horg : (((connsOf reg eid).find? (fun c => c.sessionId == sid)).map
      (fun c => c.isOrganizer)).getD false = true)
    (hlen : 50 ≤ a.length)
    (hblank : isBlank t = true) :
    handleAudioData reg store senderWs sid eid (some a) true (Except.ok t)
        translateRes speechRes =
      (reg, [Effect.sendMsg senderWs OutMsg.statusProcessing, Effect.transcribeCall a,
             Effect.sendMsg senderWs OutMsg.statusNoSpeech], store)
    ∧ (handleAudioData reg store senderWs sid eid (some a) true (Except.ok t)
        translateRes speechRes).2.2 = store
    ∧ (handleAudioData reg store senderWs sid eid (some a) true (Except.ok t)
        translateRes speechRes).2.1.countP Effect.isCreateB = 0
    ∧ (∀ w m, Effect.sendMsg w m ∈ (handleAudioData reg store senderWs sid eid (some a)
        true (Except.ok t) translateRes speechRes).2.1 → w = senderWs)
    ∧ (handleAudioData reg store senderWs sid eid (some a) true (Except.ok t)
        translateRes speechRes).2.1.countP
        (fun e => e == Effect.sendMsg senderWs OutMsg.statusNoSpeech) = 1 := by
  have heq : handleAudioData reg store senderWs sid eid (some a) true (Except.ok t)
      translateRes speechRes =
      (reg, [Effect.sendMsg senderWs OutMsg.statusProcessing, Effect.transcribeCall a,
             Effect.sendMsg senderWs OutMsg.statusNoSpeech], store) := by
    rw [handleAudioData_run reg store senderWs sid eid a t translateRes speechRes horg hlen]
    simp [afterTranscribe, hblank]
  refine ⟨heq, by rw [heq], by rw [heq]; simp [Effect.isCreateB], ?_, ?_⟩
  · intro w m hm
    rw [heq] at hm
    simp at hm
    rcases hm with ⟨h, _⟩ | ⟨h, _⟩ <;> omega
  · rw [heq]
    simp [List.countP_cons]

/-- C8: an `audio_data` message whose sender is not registered as an
organizer in the event's group (the event existing) is rejected with an
error reply to the sender alone and has no side effects: the registry,
the store, and the trace (a single error send, no service call, no record,
no fan-out) show nothing else happened. -/
theorem C8_non_organizer_rejected (reg : Registry) (store : List Translation)
    (senderWs : Nat) (sid : String) (eid : Nat) (a : String)
    (tr : Except String String)
    (translateRes : String → String → Except String String)
    (speechRes : String → String → String → Except String String)
    (hnotorg : (((connsOf reg eid).find? (fun c => c.sessionId == sid)).map
      (fun c => c.isOrganizer)).getD false = false) :
    handleAudioData reg store senderWs sid eid (some a) true tr
        translateRes speechRes =
      (reg, [Effect.sendMsg senderWs (OutMsg.errorMsg "Only organizers can broadcast audio")],
       store) := by
  simp [handleAudioData, hnotorg]

/-- Witness for C8 at a concrete registry (sender joined as participant). -/
theorem C8_non_organizer_rejected_witness :
    handleAudioData [(1, [(⟨7, true, "English", "sP", false, false⟩ : EventConnection)])]
        [] 7 "sP" 1 (some "x") true (Except.ok "Hello")
        (fun _ _ => Except.error "unused") (fun _ _ _ => Except.error "unused") =
      ([(1, [(⟨7, true, "English", "sP", false, false⟩ : EventConnection)])],
       [Effect.sendMsg 7 (OutMsg.errorMsg "Only organizers can broadcast audio")], []) :=
  C8_non_organizer_rejected [(1, [⟨7, true, "English", "sP", false, false⟩])] [] 7 "sP" 1 "x"
    (Except.ok "Hello") (fun _ _ => Except.error "unused")
    (fun _ _ _ => Except.error "unused") (by decide)

/-- C10: when the translation model call succeeds but its message content is
null or empty, `translateText` falls back to returning the input text
unchanged rather than failing. -/
theorem C10_null_or_empty_content_falls_back (text target : String)
    (content : Option String) (h : content = none ∨ content = some "") :
    translateText text target content = text := by
  rcases h with h | h <;> subst h <;> simp [translateText]

/-- Witness for C10 at concrete inputs. -/
theorem C10_null_or_empty_content_falls_back_witness :
    ((some "" : Option String) = none ∨ (some "" : Option String) = some "")
    ∧ translateText "Hello" "Spanish" (some "") = "Hello" :=
  ⟨Or.inr rfl,
   C10_null_or_empty_content_falls_back "Hello" "Spanish" (some "") (Or.inr rfl)⟩

/-- Witness for C7 at a concrete whitespace-only transcription. -/
theorem C7_blank_transcription_no_side_effects_witness :
    handleAudioData [(1, [(⟨1, true, "English", "sA", false, true⟩ : EventConnection)])]
        [] 1 "sA" 1 (some (String.mk (List.replicate 60 'a'))) true (Except.ok "   ")
        (fun _ _ => Except.error "unused") (fun _ _ _ => Except.error "unused") =
      ([(1, [(⟨1, true, "English", "sA", false, true⟩ : EventConnection)])],
       [Effect.sendMsg 1 OutMsg.statusProcessing,
        Effect.transcribeCall (String.mk (List.replicate 60 'a')),
        Effect.sendMsg 1 OutMsg.statusNoSpeech], [])
    ∧ (handleAudioData [(1, [(⟨1, true, "English", "sA", false, true⟩ : EventConnection)])]
        [] 1 "sA" 1 (some (String.mk (List.replicate 60 'a'))) true (Except.ok "   ")
        (fun _ _ => Except.error "unused") (fun _ _ _ => Except.error "unused")).2.2 = []
    ∧ (handleAudioData [(1, [(⟨1, true, "English", "sA", false, true⟩ : EventConnection)])]
        [] 1 "sA" 1 (some (String.mk (List.replicate 60 'a'))) true (Except.ok "   ")
        (fun _ _ => Except.error "unused")
        (fun _ _ _ => Except.error "unused")).2.1.countP Effect.isCreateB = 0
    ∧ (∀ w m, Effect.sendMsg w m ∈ (handleAudioData
        [(1, [(⟨1, true, "English", "sA", false, true⟩ : EventConnection)])]
        [] 1 "sA" 1 (some (String.mk (List.replicate 60 'a'))) true (Except.ok "   ")
        (fun _ _ => Except.error "unused") (fun _ _ _ => Except.error "unused")).2.1 → w = 1)
    ∧ (handleAudioData [(1, [(⟨1, true, "English", "sA", false, true⟩ : EventConnection)])]
        [] 1 "sA" 1 (some (String.mk (List.replicate 60 'a'))) true (Except.ok "   ")
        (fun _ _ => Except.error "unused")
        (fun _ _ _ => Except.error "unused")).2.1.countP
        (fun e => e == Effect.sendMsg 1 OutMsg.statusNoSpeech) = 1 :=
  C7_blank_transcription_no_side_effects
    [(1, [⟨1, true, "English", "sA", false, true⟩])] [] 1 "sA" 1
    (String.mk (List.replicate 60 'a')) "   "
    (fun _ _ => Except.error "unused") (fun _ _ _ => Except.error "unused")
    (by decide) (by decide) (by decide)

/-- C2 counterexample: an event with two audio-enabled Spanish listeners and
one target language yields two speech-synthesis invocations for one segment,
so synthesis is not invoked at most once per target language. -/
theorem C2_speech_shared_counterexample :
    (handleAudioData
        [(1, [⟨1, true, "English", "sA", false, true⟩,
              ⟨2, true, "Spanish", "sB", true, false⟩,
              ⟨3, true, "Spanish", "sC", true, false⟩])]
        [] 1 "sA" 1 (some (String.mk (List.replicate 60 'a'))) true (Except.ok "Hello")
        (fun _ L => if L == "Spanish" then Except.ok "Hola" else Except.error "unsupported")
        (fun txt _ _ => Except.ok ("AUDIO-" ++ txt))).2.1.countP Effect.isSpeechB = 2
    ∧ (targetLanguagesOf (connsOf
        [(1, [⟨1, true, "English", "sA", false, true⟩,
              ⟨2, true, "Spanish", "sB", true, false⟩,
              ⟨3, true, "Spanish", "sC", true, false⟩])] 1)).length = 1 := by
  decide

/-- C2 (amended): for a per-language job whose translation succeeded, speech
synthesis is invoked exactly once per open audio-enabled connection of that
language (per connection, not shared across the language), and a synthesis
failure degrades only that language's audio delivery: no audio frame is
sent, every open connection of the language still receives its text
translation, and the job still settles successfully. -/
theorem C2_speech_per_audio_connection (ctx : PipeCtx) (t s L err : String)
    (store : List Translation)
    (htr : ctx.translateRes t L = Except.ok s) :
    (runJob ctx t store L).1.countP Effect.isSpeechB = (audioClients ctx.conns L).length
    ∧ (ctx.speechRes s "nova" (langHintOf L) = Except.error err →
        (runJob ctx t store L).1.countP Effect.isAudioSendB = 0
        ∧ (runJob ctx t store L).2.2 = true
        ∧ (∀ c ∈ ctx.conns, c.language = L → c.wsOpen = true →
            ∃ r : Translation, Effect.sendMsg c.wsId (OutMsg.translationMsg r t)
                ∈ (runJob ctx t store L).1
              ∧ r.translatedText = some s)) := by
  refine ⟨runJob_speech_count store htr,
    fun hsp => ⟨runJob_no_audio_of_speech_fail store htr hsp, ?_, ?_⟩⟩
  · rw [runJob_success, htr]
    rfl
  · intro c hc hlang hopen
    obtain ⟨r, hmem, _, htxt, _⟩ := runJob_text_delivery store htr hc hlang hopen
    exact ⟨r, hmem, htxt⟩

/-- Witness for the amended C2 at a concrete failing synthesis service. -/
theorem C2_speech_per_audio_connection_witness :
    (runJob ⟨1, 1, [⟨2, true, "Spanish", "sB", true, false⟩],
        fun _ _ => Except.ok "Hola", fun _ _ _ => Except.error "tts down"⟩
        "Hello" [] "Spanish").1.countP Effect.isSpeechB =
      (audioClients [⟨2, true, "Spanish", "sB", true, false⟩] "Spanish").length
    ∧ ((fun (_ _ _ : String) => (Except.error "tts down" : Except String String)) "Hola" "nova"
          (langHintOf "Spanish") = Except.error "tts down" →
        (runJob ⟨1, 1, [⟨2, true, "Spanish", "sB", true, false⟩],
            fun _ _ => Except.ok "Hola", fun _ _ _ => Except.error "tts down"⟩
            "Hello" [] "Spanish").1.countP Effect.isAudioSendB = 0
        ∧ (runJob ⟨1, 1, [⟨2, true, "Spanish", "sB", true, false⟩],
            fun _ _ => Except.ok "Hola", fun _ _ _ => Except.error "tts down"⟩
            "Hello" [] "Spanish").2.2 = true
        ∧ (∀ c ∈ [(⟨2, true, "Spanish", "sB", true, false⟩ : EventConnection)],
            c.language = "Spanish" → c.wsOpen = true →
            ∃ r : Translation, Effect.sendMsg c.wsId (OutMsg.translationMsg r "Hello")
                ∈ (runJob ⟨1, 1, [⟨2, true, "Spanish", "sB", true, false⟩],
                    fun _ _ => Except.ok "Hola", fun _ _ _ => Except.error "tts down"⟩
                    "Hello" [] "Spanish").1
              ∧ r.translatedText = some "Hola")) :=
  C2_speech_per_audio_connection
    ⟨1, 1, [⟨2, true, "Spanish", "sB", true, false⟩],
     fun _ _ => Except.ok "Hola", fun _ _ _ => Except.error "tts down"⟩
    "Hello" "Hola" "Spanish" "tts down" [] rfl

/-- C5 counterexample: with one English connection (the organizer) and one
Spanish listener, the attempted target-language count is 1 but the aggregate
status reports totalLanguages = 2 (`uniqueLanguages.length` includes the
source language), so the reported total does not equal the attempted count. -/
theorem C5_total_mismatch_counterexample :
    Effect.sendMsg 1 (OutMsg.statusComplete 1 0 2) ∈ (handleAudioData
        [(1, [⟨1, true, "English", "sA", false, true⟩,
              ⟨2, true, "Spanish", "sB", false, false⟩])]
        [] 1 "sA" 1 (some (String.mk (List.replicate 60 'a'))) true (Except.ok "Hello")
        (fun _ L => if L == "Spanish" then Except.ok "Hola" else Except.error "unsupported")
        (fun txt _ _ => Except.ok ("AUDIO-" ++ txt))).2.1
    ∧ (targetLanguagesOf (connsOf
        [(1, [⟨1, true, "English", "sA", false, true⟩,
              ⟨2, true, "Spanish", "sB", false, false⟩])] 1)).length = 1
    ∧ (2 : Nat) ≠ 1 := by
  decide

/-- C6: in the three-connection scenario A(English, audio off), B(Spanish,
audio on), C(Spanish, audio off), a segment transcribing to "Hello" and
translating to "Hola": A receives the original text, B and C receive the
Spanish text, the audio frame goes to B only; and in general an
`audio_translation` frame only ever goes to an open audio-enabled connection
of a non-English language. -/
theorem C6_text_audio_routing :
    (Effect.sendMsg 1 (OutMsg.translationMsg ⟨1, 1, "Hello", none, "English"⟩ "Hello") ∈
      (handleAudioData
        [(1, [⟨1, true, "English", "sA", false, true⟩,
              ⟨2, true, "Spanish", "sB", true, false⟩,
              ⟨3, true, "Spanish", "sC", false, false⟩])]
        [] 1 "sA" 1 (some (String.mk (List.replicate 60 'a'))) true (Except.ok "Hello")
        (fun _ L => if L == "Spanish" then Except.ok "Hola" else Except.error "unsupported")
        (fun txt _ _ => Except.ok ("AUDIO-" ++ txt))).2.1
    ∧ Effect.sendMsg 2 (OutMsg.translationMsg ⟨2, 1, "Hello", some "Hola", "Spanish"⟩ "Hello") ∈
      (handleAudioData
        [(1, [⟨1, true, "English", "sA", false, true⟩,
              ⟨2, true, "Spanish", "sB", true, false⟩,
              ⟨3, true, "Spanish", "sC", false, false⟩])]
        [] 1 "sA" 1 (some (String.mk (List.replicate 60 'a'))) true (Except.ok "Hello")
        (fun _ L => if L == "Spanish" then Except.ok "Hola" else Except.error "unsupported")
        (fun txt _ _ => Except.ok ("AUDIO-" ++ txt))).2.1
    ∧ Effect.sendMsg 3 (OutMsg.translationMsg ⟨2, 1, "Hello", some "Hola", "Spanish"⟩ "Hello") ∈
      (handleAudioData
        [(1, [⟨1, true, "English", "sA", false, true⟩,
              ⟨2, true, "Spanish", "sB", true, false⟩,
              ⟨3, true, "Spanish", "sC", false, false⟩])]
        [] 1 "sA" 1 (some (String.mk (List.replicate 60 'a'))) true (Except.ok "Hello")
        (fun _ L => if L == "Spanish" then Except.ok "Hola" else Except.error "unsupported")
        (fun txt _ _ => Except.ok ("AUDIO-" ++ txt))).2.1
    ∧ Effect.sendMsg 2 (OutMsg.audioTranslationMsg "AUDIO-Hola" "Hola") ∈
      (handleAudioData
        [(1, [⟨1, true, "English", "sA", false, true⟩,
              ⟨2, true, "Spanish", "sB", true, false⟩,
              ⟨3, true, "Spanish", "sC", false, false⟩])]
        [] 1 "sA" 1 (some (String.mk (List.replicate 60 'a'))) true (Except.ok "Hello")
        (fun _ L => if L == "Spanish" then Except.ok "Hola" else Except.error "unsupported")
        (fun txt _ _ => Except.ok ("AUDIO-" ++ txt))).2.1
    ∧ audioSendsTo ((handleAudioData
        [(1, [⟨1, true, "English", "sA", false, true⟩,
              ⟨2, true, "Spanish", "sB", true, false⟩,
              ⟨3, true, "Spanish", "sC", false, false⟩])]
        [] 1 "sA" 1 (some (String.mk (List.replicate 60 'a'))) true (Except.ok "Hello")
        (fun _ L => if L == "Spanish" then Except.ok "Hola" else Except.error "unsupported")
        (fun txt _ _ => Except.ok ("AUDIO-" ++ txt))).2.1) 2 = 1
    ∧ audioSendsTo ((handleAudioData
        [(1, [⟨1, true, "English", "sA", false, true⟩,
              ⟨2, true, "Spanish", "sB", true, false⟩,
              ⟨3, true, "Spanish", "sC", false, false⟩])]
        [] 1 "sA" 1 (some (String.mk (List.replicate 60 'a'))) true (Except.ok "Hello")
        (fun _ L => if L == "Spanish" then Except.ok "Hola" else Except.error "unsupported")
        (fun txt _ _ => Except.ok ("AUDIO-" ++ txt))).2.1) 1 = 0
    ∧ audioSendsTo ((handleAudioData
        [(1, [⟨1, true, "English", "sA", false, true⟩,
              ⟨2, true, "Spanish", "sB", true, false⟩,
              ⟨3, true, "Spanish", "sC", false, false⟩])]
        [] 1 "sA" 1 (some (String.mk (List.replicate 60 'a'))) true (Except.ok "Hello")
        (fun _ L => if L == "Spanish" then Except.ok "Hola" else Except.error "unsupported")
        (fun txt _ _ => Except.ok ("AUDIO-" ++ txt))).2.1) 3 = 0)
    ∧ ∀ (reg : Registry) (store : List Translation) (senderWs : Nat) (sid : String)
        (eid : Nat) (audio : Option String) (evEx : Bool) (tr : Except String String)
        (translateRes : String → String → Except String String)
        (speechRes : String → String → String → Except String String)
        (w : Nat) (au tx : String),
      Effect.sendMsg w (OutMsg.audioTranslationMsg au tx) ∈
        (handleAudioData reg store senderWs sid eid audio evEx tr
          translateRes speechRes).2.1 →
      ∃ c, c ∈ connsOf reg eid ∧ c.wsId = w ∧ c.enableAudio = true ∧ c.wsOpen = true
        ∧ c.language ≠ "English" := by
  constructor
  · decide
  · intro reg store senderWs sid eid audio evEx tr translateRes speechRes w au tx he
    exact handleAudioData_audio_origin he

/-- Witness for C6's general audio-gating conjunct at a concrete trace. -/
theorem C6_text_audio_routing_witness :
    ∃ c, c ∈ connsOf
        [(1, [⟨1, true, "English", "sA", false, true⟩,
              ⟨2, true, "Spanish", "sB", true, false⟩,
              ⟨3, true, "Spanish", "sC", false, false⟩])] 1
      ∧ c.wsId = 2 ∧ c.enableAudio = true ∧ c.wsOpen = true ∧ c.language ≠ "English" :=
  C6_text_audio_routing.2
    [(1, [⟨1, true, "English", "sA", false, true⟩,
          ⟨2, true, "Spanish", "sB", true, false⟩,
          ⟨3, true, "Spanish", "sC", false, false⟩])]
    [] 1 "sA" 1 (some (String.mk (List.replicate 60 'a'))) true (Except.ok "Hello")
    (fun _ L => if L == "Spanish" then Except.ok "Hola" else Except.error "unsupported")
    (fun txt _ _ => Except.ok ("AUDIO-" ++ txt)) 2 "AUDIO-Hola" "Hola" (by decide)

lemma countP_bool_total (l : List Bool) :
    l.countP (fun b => b) + l.countP (fun b => !b) = l.length := by
  induction l with
  | nil => simp
  | cons x xs ih => cases x <;> simp [List.countP_cons] <;> omega

lemma runJobs_fail_count {ctx : PipeCtx} {t Lbad err : String} (store : List Translation)
    (hbadmem : Lbad ∈ targetLanguagesOf ctx.conns)
    (hbad : ctx.translateRes t Lbad = Except.error err)
    (hok : ∀ L ∈ targetLanguagesOf ctx.conns, L ≠ Lbad →
      ∃ s, ctx.translateRes t L = Except.ok s) :
    (runJobs ctx t store (targetLanguagesOf ctx.conns)).2.2.countP (fun b => !b) = 1 := by
  rw [runJobs_oks, List.countP_map]
  have hcongr : ∀ L ∈ targetLanguagesOf ctx.conns,
      ((fun b => !b) ∘ (fun L => (ctx.translateRes t L).isOk)) L = (L == Lbad) := by
    intro L hL
    simp only [Function.comp]
    by_cases hLb : L = Lbad
    · subst hLb
      rw [hbad]
      simp [Except.isOk, Except.toBool]
    · obtain ⟨s, hs⟩ := hok L hL hLb
      rw [hs]
      simp [Except.isOk, Except.toBool, hLb]
  rw [List.countP_eq_length_filter, List.filter_congr hcongr,
    ← List.countP_eq_length_filter]
  have hcount : (targetLanguagesOf ctx.conns).count Lbad = 1 :=
    List.count_eq_one_of_mem (targetLanguagesOf_nodup _) hbadmem
  rw [← hcount]
  rfl

lemma mainPipeline_C1 (ctx : PipeCtx) (t : String) (store : List Translation)
    (Lbad err : String)
    (hbadmem : Lbad ∈ targetLanguagesOf ctx.conns)
    (hbad : ctx.translateRes t Lbad = Except.error err)
    (hok : ∀ L ∈ targetLanguagesOf ctx.conns, L ≠ Lbad →
      ∃ s, ctx.translateRes t L = Except.ok s) :
    (mainPipeline ctx t store).1.countP Effect.isTranslateB
        = (targetLanguagesOf ctx.conns).length
    ∧ Effect.sendMsg ctx.senderWs (OutMsg.statusComplete
        ((targetLanguagesOf ctx.conns).length - 1) 1 (uniqueLanguagesOf ctx.conns).length)
        ∈ (mainPipeline ctx t store).1
    ∧ ∀ L ∈ targetLanguagesOf ctx.conns, L ≠ Lbad →
        ∃ s, ctx.translateRes t L = Except.ok s
          ∧ (∃ r ∈ (mainPipeline ctx t store).2, r.language = L ∧ r.translatedText = some s
              ∧ r.originalText = t)
          ∧ ∀ c ∈ ctx.conns, c.language = L → c.wsOpen = true →
              ∃ r : Translation, Effect.sendMsg c.wsId (OutMsg.translationMsg r t)
                  ∈ (mainPipeline ctx t store).1
                ∧ r.language = L ∧ r.translatedText = some s := by
  have hfail := runJobs_fail_count
    (store ++ [⟨store.length + 1, ctx.eventId, t, none, "English"⟩]) hbadmem hbad hok
  have htot := countP_bool_total
    ((runJobs ctx t (store ++ [⟨store.length + 1, ctx.eventId, t, none, "English"⟩])
      (targetLanguagesOf ctx.conns)).2.2)
  have hlen : ((runJobs ctx t (store ++ [⟨store.length + 1, ctx.eventId, t, none, "English"⟩])
      (targetLanguagesOf ctx.conns)).2.2).length = (targetLanguagesOf ctx.conns).length := by
    rw [runJobs_oks, List.length_map]
  have hsucc : (runJobs ctx t
      (store ++ [⟨store.length + 1, ctx.eventId, t, none, "English"⟩])
      (targetLanguagesOf ctx.conns)).2.2.countP (fun b => b)
        = (targetLanguagesOf ctx.conns).length - 1 := by
    omega
  refine ⟨?_, ?_, ?_⟩
  · simp only [mainPipeline]
    simp [List.countP_cons, List.countP_append, runJobs_translate_count,
      sourceSends_count_zero Effect.isTranslateB (fun _ _ _ => rfl), Effect.isTranslateB]
  · simp only [mainPipeline]
    rw [hsucc, hfail]
    exact List.mem_cons_of_mem _ (List.mem_cons_of_mem _
      (List.mem_append_right _ (List.mem_singleton.mpr rfl)))
  · intro L hL hne
    obtain ⟨s, hs⟩ := hok L hL hne
    refine ⟨s, hs, ?_, ?_⟩
    · obtain ⟨r, hr, hq1, hq2, hq3, _⟩ := runJobs_record_mem (targetLanguagesOf ctx.conns)
        (store ++ [⟨store.length + 1, ctx.eventId, t, none, "English"⟩]) hL hs
      exact ⟨r, by simp only [mainPipeline]; exact hr, hq1, hq2, hq3⟩
    · intro c hc hlang hopen
      obtain ⟨r, hrmem, hp1, hp2, _⟩ := runJobs_text_delivery (targetLanguagesOf ctx.conns)
        (store ++ [⟨store.length + 1, ctx.eventId, t, none, "English"⟩]) hL hs hc hlang hopen
      refine ⟨r, ?_, hp1, hp2⟩
      simp only [mainPipeline]
      exact List.mem_cons_of_mem _ (List.mem_cons_of_mem _
        (List.mem_append_left _ (List.mem_append_right _ hrmem)))

/-- C1: for a successful non-empty transcription, the pipeline issues exactly
one translation call per distinct registered non-source language (N calls for
N distinct target languages); a failure of exactly one per-language job does
not abort the siblings: every other target language still gets its
TranslationRecord stored and its text delivered to its open connections, and
the aggregate status reports one failed and N−1 succeeded jobs. -/
theorem C1_fanout_failure_isolation (reg : Registry) (store : List Translation)
    (senderWs : Nat) (sid : String) (eid : Nat) (a t Lbad err : String)
    (translateRes : String → String → Except String String)
    (speechRes : String → String → String → Except String String)
    (horg : (((connsOf reg eid).find? (fun c => c.sessionId == sid)).map
      (fun c => c.isOrganizer)).getD false = true)
    (hlen : 50 ≤ a.length) (hb : isBlank t = false)
    (hbadmem : Lbad ∈ targetLanguagesOf (connsOf reg eid))
    (hbad : translateRes t Lbad = Except.error err)
    (hok : ∀ L ∈ targetLanguagesOf (connsOf reg eid), L ≠ Lbad →
      ∃ s, translateRes t L = Except.ok s) :
    (handleAudioData reg store senderWs sid eid (some a) true (Except.ok t)
        translateRes speechRes).2.1.countP Effect.isTranslateB
      = (targetLanguagesOf (connsOf reg eid)).length
    ∧ Effect.sendMsg senderWs (OutMsg.statusComplete
        ((targetLanguagesOf (connsOf reg eid)).length - 1) 1
        (uniqueLanguagesOf (connsOf reg eid)).length)
      ∈ (handleAudioData reg store senderWs sid eid (some a) true (Except.ok t)
          translateRes speechRes).2.1
    ∧ ∀ L ∈ targetLanguagesOf (connsOf reg eid), L ≠ Lbad →
        ∃ s, translateRes t L = Except.ok s
          ∧ (∃ r ∈ (handleAudioData reg store senderWs sid eid (some a) true (Except.ok t)
                translateRes speechRes).2.2,
              r.language = L ∧ r.translatedText = some s ∧ r.originalText = t)
          ∧ ∀ c ∈ connsOf reg eid, c.language = L → c.wsOpen = true →
              ∃ r : Translation, Effect.sendMsg c.wsId (OutMsg.translationMsg r t)
                  ∈ (handleAudioData reg store senderWs sid eid (some a) true (Except.ok t)
                      translateRes speechRes).2.1
                ∧ r.language = L ∧ r.translatedText = some s := by
  have hmp := mainPipeline_C1 ⟨eid, senderWs, connsOf reg eid, translateRes, speechRes⟩
    t store Lbad err hbadmem hbad hok
  rw [handleAudioData_run reg store senderWs sid eid a t translateRes speechRes horg hlen,
    afterTranscribe_ok_nonblank hb]
  dsimp only
  refine ⟨?_, ?_, ?_⟩
  · simp only [List.countP_cons, Effect.isTranslateB]
    rw [hmp.1]
    simp
  · exact List.mem_cons_of_mem _ (List.mem_cons_of_mem _ hmp.2.1)
  · intro L hL hne
    obtain ⟨s, hs, hrec, hsend⟩ := hmp.2.2 L hL hne
    refine ⟨s, hs, hrec, ?_⟩
    intro c hc hlang hopen
    obtain ⟨r, hrmem, hp1, hp2⟩ := hsend c hc hlang hopen
    exact ⟨r, List.mem_cons_of_mem _ (List.mem_cons_of_mem _ hrmem), hp1, hp2⟩

/-- Witness for C1: two target languages, the French job forced to fail. -/
theorem C1_fanout_failure_isolation_witness :
    (handleAudioData
        [(1, [⟨1, true, "English", "sA", false, true⟩,
              ⟨2, true, "Spanish", "sB", false, false⟩,
              ⟨3, true, "French", "sC", false, false⟩])]
        [] 1 "sA" 1 (some (String.mk (List.replicate 60 'a'))) true (Except.ok "Hello")
        (fun _ L => if L == "French" then Except.error "unsupported" else Except.ok "Hola")
        (fun _ _ _ => Except.ok "x")).2.1.countP Effect.isTranslateB
      = (targetLanguagesOf (connsOf
          [(1, [⟨1, true, "English", "sA", false, true⟩,
                ⟨2, true, "Spanish", "sB", false, false⟩,
                ⟨3, true, "French", "sC", false, false⟩])] 1)).length
    ∧ Effect.sendMsg 1 (OutMsg.statusComplete
        ((targetLanguagesOf (connsOf
           [(1, [⟨1, true, "English", "sA", false, true⟩,
                 ⟨2, true, "Spanish", "sB", false, false⟩,
                 ⟨3, true, "French", "sC", false, false⟩])] 1)).length - 1) 1
        (uniqueLanguagesOf (connsOf
           [(1, [⟨1, true, "English", "sA", false, true⟩,
                 ⟨2, true, "Spanish", "sB", false, false⟩,
                 ⟨3, true, "French", "sC", false, false⟩])] 1)).length)
      ∈ (handleAudioData
          [(1, [⟨1, true, "English", "sA", false, true⟩,
                ⟨2, true, "Spanish", "sB", false, false⟩,
                ⟨3, true, "French", "sC", false, false⟩])]
          [] 1 "sA" 1 (some (String.mk (List.replicate 60 'a'))) true (Except.ok "Hello")
          (fun _ L => if L == "French" then Except.error "unsupported" else Except.ok "Hola")
          (fun _ _ _ => Except.ok "x")).2.1
    ∧ ∀ L ∈ targetLanguagesOf (connsOf
          [(1, [⟨1, true, "English", "sA", false, true⟩,
                ⟨2, true, "Spanish", "sB", false, false⟩,
                ⟨3, true, "French", "sC", false, false⟩])] 1), L ≠ "French" →
        ∃ s, (fun (_ L : String) =>
            if L == "French" then (Except.error "unsupported" : Except String String)
            else Except.ok "Hola") "Hello" L = Except.ok s
          ∧ (∃ r ∈ (handleAudioData
                [(1, [⟨1, true, "English", "sA", false, true⟩,
                      ⟨2, true, "Spanish", "sB", false, false⟩,
                      ⟨3, true, "French", "sC", false, false⟩])]
                [] 1 "sA" 1 (some (String.mk (List.replicate 60 'a'))) true (Except.ok "Hello")
                (fun _ L => if L == "French" then Except.error "unsupported"
                  else Except.ok "Hola")
                (fun _ _ _ => Except.ok "x")).2.2,
              r.language = L ∧ r.translatedText = some s ∧ r.originalText = "Hello")
          ∧ ∀ c ∈ connsOf
              [(1, [⟨1, true, "English", "sA", false, true⟩,
                    ⟨2, true, "Spanish", "sB", false, false⟩,
                    ⟨3, true, "French", "sC", false, false⟩])] 1,
              c.language = L → c.wsOpen = true →
              ∃ r : Translation, Effect.sendMsg c.wsId (OutMsg.translationMsg r "Hello")
                  ∈ (handleAudioData
                      [(1, [⟨1, true, "English", "sA", false, true⟩,
                            ⟨2, true, "Spanish", "sB", false, false⟩,
                            ⟨3, true, "French", "sC", false, false⟩])]
                      [] 1 "sA" 1 (some (String.mk (List.replicate 60 'a'))) true
                      (Except.ok "Hello")
                      (fun _ L => if L == "French" then Except.error "unsupported"
                        else Except.ok "Hola")
                      (fun _ _ _ => Except.ok "x")).2.1
                ∧ r.language = L ∧ r.translatedText = some s :=
  C1_fanout_failure_isolation
    [(1, [⟨1, true, "English", "sA", false, true⟩,
          ⟨2, true, "Spanish", "sB", false, false⟩,
          ⟨3, true, "French", "sC", false, false⟩])]
    [] 1 "sA" 1 (String.mk (List.replicate 60 'a')) "Hello" "French" "unsupported"
    (fun _ L => if L == "French" then Except.error "unsupported" else Except.ok "Hola")
    (fun _ _ _ => Except.ok "x")
    (by decide) (by decide) (by decide) (by decide) rfl
    (fun L _ hne => ⟨"Hola", by simp [hne]⟩)

/-- C4: the source-language record (English, TranslatedText null) is created
strictly before any translation-service call and before any translated-language
record: the trace splits as a prefix with no translation call and no record
creation, then the English record creation, then a suffix whose record
creations are all non-English. -/
theorem C4_source_record_created_first (reg : Registry) (store : List Translation)
    (senderWs : Nat) (sid : String) (eid : Nat) (a t : String)
    (translateRes : String → String → Except String String)
    (speechRes : String → String → String → Except String String)
    (horg : (((connsOf reg eid).find? (fun c => c.sessionId == sid)).map
      (fun c => c.isOrganizer)).getD false = true)
    (hlen : 50 ≤ a.length) (hb : isBlank t = false) :
    ∃ (pre post : List Effect) (engRec : Translation),
      (handleAudioData reg store senderWs sid eid (some a) true (Except.ok t)
          translateRes speechRes).2.1 = pre ++ Effect.createRecord engRec :: post
      ∧ engRec.language = "English" ∧ engRec.translatedText = none
      ∧ engRec.originalText = t
      ∧ (∀ e ∈ pre, e.isTranslateB = false ∧ e.isCreateB = false)
      ∧ (∀ r : Translation, Effect.createRecord r ∈ post → r.language ≠ "English") := by
  rw [handleAudioData_run reg store senderWs sid eid a t translateRes speechRes horg hlen,
    afterTranscribe_ok_nonblank hb]
  dsimp only
  simp only [mainPipeline]
  refine ⟨[Effect.sendMsg senderWs OutMsg.statusProcessing, Effect.transcribeCall a],
    _, _, rfl, rfl, rfl, rfl, ?_, ?_⟩
  · intro e he
    rcases List.mem_cons.mp he with h | he2
    · subst h; exact ⟨rfl, rfl⟩
    · rcases List.mem_cons.mp he2 with h | he3
      · subst h; exact ⟨rfl, rfl⟩
      · simp at he3
  · intro r hr
    rcases List.mem_cons.mp hr with h | hr2
    · exact absurd h (by simp)
    · rcases List.mem_append.mp hr2 with h3 | h3
      · rcases List.mem_append.mp h3 with h4 | h4
        · obtain ⟨c, _, _, _, hshape⟩ := mem_sourceSends_shape h4
          exact absurd hshape (by simp)
        · exact mem_targetLanguagesOf_ne (runJobs_create_lang _ _ h4)
      · simp at h3

/-- Witness for C4 at a concrete event with one Spanish listener. -/
theorem C4_source_record_created_first_witness :
    ∃ (pre post : List Effect) (engRec : Translation),
      (handleAudioData
          [(1, [⟨1, true, "English", "sA", false, true⟩,
                ⟨2, true, "Spanish", "sB", false, false⟩])]
          [] 1 "sA" 1 (some (String.mk (List.replicate 60 'a'))) true (Except.ok "Hello")
          (fun _ _ => Except.ok "Hola") (fun _ _ _ => Except.ok "x")).2.1
        = pre ++ Effect.createRecord engRec :: post
      ∧ engRec.language = "English" ∧ engRec.translatedText = none
      ∧ engRec.originalText = "Hello"
      ∧ (∀ e ∈ pre, e.isTranslateB = false ∧ e.isCreateB = false)
      ∧ (∀ r : Translation, Effect.createRecord r ∈ post → r.language ≠ "English") :=
  C4_source_record_created_first
    [(1, [⟨1, true, "English", "sA", false, true⟩,
          ⟨2, true, "Spanish", "sB", false, false⟩])]
    [] 1 "sA" 1 (String.mk (List.replicate 60 'a')) "Hello"
    (fun _ _ => Except.ok "Hola") (fun _ _ _ => Except.ok "x")
    (by decide) (by decide) (by decide)

lemma runJob_complete_zero (ctx : PipeCtx) (t : String) (store : List Translation)
    (L : String) : (runJob ctx t store L).1.countP Effect.isCompleteSendB = 0 := by
  cases htr : ctx.translateRes t L with
  | error e => simp [runJob, htr, List.countP_cons, Effect.isCompleteSendB]
  | ok s =>
      simp only [runJob, htr, List.countP_cons]
      have h0 : ((ctx.conns.filter (fun c => c.language == L)).flatMap
          (clientSends ⟨store.length + 1, ctx.eventId, t, some s, L⟩ s L
            ctx.speechRes)).countP Effect.isCompleteSendB = 0 := by
        rw [List.countP_eq_zero]
        intro e he
        obtain ⟨c, _, hec⟩ := List.mem_flatMap.mp he
        rcases mem_clientSends hec with h | h | ⟨au, h⟩ <;> subst h <;>
          simp [Effect.isCompleteSendB]
      rw [h0]
      simp [Effect.isCompleteSendB]

lemma runJobs_complete_zero (ctx : PipeCtx) (t : String) :
    ∀ (langs : List String) (store : List Translation),
      (runJobs ctx t store langs).1.countP Effect.isCompleteSendB = 0 := by
  intro langs
  induction langs with
  | nil => intro store; simp [runJobs]
  | cons L rest ih =>
      intro store
      simp only [runJobs, List.countP_append]
      rw [runJob_complete_zero, ih]

/-- C5 (amended): after all per-language jobs settle the submitter receives
exactly one aggregate completion status; its succeeded and failed counts sum
to the number of distinct target languages attempted (distinct registered
languages excluding the source), but the reported total is the number of
distinct languages including the source language when present
(`uniqueLanguages.length`), not the attempted count. -/
theorem C5_aggregate_status_counts (reg : Registry) (store : List Translation)
    (senderWs : Nat) (sid : String) (eid : Nat) (a t : String)
    (translateRes : String → String → Except String String)
    (speechRes : String → String → String → Except String String)
    (horg : (((connsOf reg eid).find? (fun c => c.sessionId == sid)).map
      (fun c => c.isOrganizer)).getD false = true)
    (hlen : 50 ≤ a.length) (hb : isBlank t = false) :
    ∃ sN fN,
      Effect.sendMsg senderWs (OutMsg.statusComplete sN fN
          (uniqueLanguagesOf (connsOf reg eid)).length)
        ∈ (handleAudioData reg store senderWs sid eid (some a) true (Except.ok t)
            translateRes speechRes).2.1
      ∧ sN + fN = (targetLanguagesOf (connsOf reg eid)).length
      ∧ (handleAudioData reg store senderWs sid eid (some a) true (Except.ok t)
          translateRes speechRes).2.1.countP Effect.isCompleteSendB = 1 := by
  rw [handleAudioData_run reg store senderWs sid eid a t translateRes speechRes horg hlen,
    afterTranscribe_ok_nonblank hb]
  dsimp only
  refine ⟨(runJobs ⟨eid, senderWs, connsOf reg eid, translateRes, speechRes⟩ t
      (store ++ [⟨store.length + 1, eid, t, none, "English"⟩])
      (targetLanguagesOf (connsOf reg eid))).2.2.countP (fun b => b),
    (runJobs ⟨eid, senderWs, connsOf reg eid, translateRes, speechRes⟩ t
      (store ++ [⟨store.length + 1, eid, t, none, "English"⟩])
      (targetLanguagesOf (connsOf reg eid))).2.2.countP (fun b => !b), ?_, ?_, ?_⟩
  · simp only [mainPipeline]
    exact List.mem_cons_of_mem _ (List.mem_cons_of_mem _ (List.mem_cons_of_mem _
      (List.mem_cons_of_mem _ (List.mem_append_right _ (List.mem_singleton.mpr rfl)))))
  · have h1 := countP_bool_total ((runJobs
      ⟨eid, senderWs, connsOf reg eid, translateRes, speechRes⟩ t
      (store ++ [⟨store.length + 1, eid, t, none, "English"⟩])
      (targetLanguagesOf (connsOf reg eid))).2.2)
    have h2 : ((runJobs ⟨eid, senderWs, connsOf reg eid, translateRes, speechRes⟩ t
        (store ++ [⟨store.length + 1, eid, t, none, "English"⟩])
        (targetLanguagesOf (connsOf reg eid))).2.2).length
          = (targetLanguagesOf (connsOf reg eid)).length := by
      rw [runJobs_oks, List.length_map]
    omega
  · simp only [mainPipeline]
    simp [List.countP_cons, List.countP_append, runJobs_complete_zero,
      sourceSends_count_zero Effect.isCompleteSendB (fun _ _ _ => rfl),
      Effect.isCompleteSendB]

/-- Witness for the amended C5 at a concrete English + Spanish event. -/
theorem C5_aggregate_status_counts_witness :
    ∃ sN fN,
      Effect.sendMsg 1 (OutMsg.statusComplete sN fN
          (uniqueLanguagesOf (connsOf
            [(1, [⟨1, true, "English", "sA", false, true⟩,
                  ⟨2, true, "Spanish", "sB", false, false⟩])] 1)).length)
        ∈ (handleAudioData
            [(1, [⟨1, true, "English", "sA", false, true⟩,
                  ⟨2, true, "Spanish", "sB", false, false⟩])]
            [] 1 "sA" 1 (some (String.mk (List.replicate 60 'a'))) true (Except.ok "Hello")
            (fun _ _ => Except.ok "Hola") (fun _ _ _ => Except.ok "x")).2.1
      ∧ sN + fN = (targetLanguagesOf (connsOf
          [(1, [⟨1, true, "English", "sA", false, true⟩,
                ⟨2, true, "Spanish", "sB", false, false⟩])] 1)).length
      ∧ (handleAudioData
          [(1, [⟨1, true, "English", "sA", false, true⟩,
                ⟨2, true, "Spanish", "sB", false, false⟩])]
          [] 1 "sA" 1 (some (String.mk (List.replicate 60 'a'))) true (Except.ok "Hello")
          (fun _ _ => Except.ok "Hola")
          (fun _ _ _ => Except.ok "x")).2.1.countP Effect.isCompleteSendB = 1 :=
  C5_aggregate_status_counts
    [(1, [⟨1, true, "English", "sA", false, true⟩,
          ⟨2, true, "Spanish", "sB", false, false⟩])]
    [] 1 "sA" 1 (String.mk (List.replicate 60 'a')) "Hello"
    (fun _ _ => Except.ok "Hola") (fun _ _ _ => Except.ok "x")
    (by decide) (by decide) (by decide)
